import Mathlib

/-
Verification development for the chat-transcript classifier in main.go.

The program scans dialog folders for client-authored messages containing
configured trigger patterns, classifies each folder into problem types, and
aggregates per-type counts, per-type dialog lists and trigger frequencies.

The embedding below mirrors main.go.  File-system and JSON effects are made
explicit: the folder listing is an `Option (List String)` (`none` models a
ReadDir error), and reading plus JSON-parsing of one transcript file is a
function `String → Option ConversationChat` (`none` models a read or parse
error).  The external collaborators (the `problemTypes` configuration map
and the pre-compiled pattern matcher `FindPatternMatches`) are parameters:
`pts` is the list of problem-type keys in map-iteration order and
`fpm text typeKey` returns the matched trigger strings.

Strings are modelled through their character lists; the Go library calls
`strings.ToLower`, `strings.EqualFold`, `strings.Contains`,
`strings.HasPrefix`, byte-wise string comparison and the fixed regular
expression `conv_([A-Z]+-\d+)_` are given explicit executable definitions
(ASCII case mapping, which is exact for the ASCII inputs of the claims).
-/

namespace DialogClassifier

/-! ### Models of the Go string library calls -/

/-- ASCII lower-casing of one character, as `strings.ToLower` acts on ASCII. -/
def goToLowerChar (c : Char) : Char :=
  if 'A' ≤ c ∧ c ≤ 'Z' then Char.ofNat (c.toNat + 32) else c

/-- Model of `strings.ToLower` (main.go line 208), ASCII case. -/
def goToLower (s : String) : String := String.mk (s.data.map goToLowerChar)

/-- Model of `strings.EqualFold` (main.go line 222): equality under simple
case folding, which on ASCII strings is equality of the lower-casings. -/
def goEqualFold (s t : String) : Bool := goToLower s == goToLower t

/-- Model of `strings.HasPrefix` (main.go line 204). -/
def goHasPrefix (p s : String) : Bool := p.data.isPrefixOf s.data

/-- Substring test on character lists: some tail of `hay` starts with `pat`. -/
def containsSub (hay pat : List Char) : Bool :=
  match hay with
  | [] => pat.isEmpty
  | c :: rest => pat.isPrefixOf (c :: rest) || containsSub rest pat

/-- Model of `strings.Contains` (main.go line 179). -/
def goContains (s pat : String) : Bool := containsSub s.data pat.data

/-- Byte-wise lexicographic `≤` on character lists (UTF-8 byte order equals
code-point order), the order Go uses to compare strings. -/
def lexLe : List Char → List Char → Bool
  | [], _ => true
  | _ :: _, [] => false
  | a :: as, b :: bs => if a < b then true else if b < a then false else lexLe as bs

/-! ### The regular expression `conv_([A-Z]+-\d+)_` (main.go line 44) -/

def isUpperAZ (c : Char) : Bool := 'A' ≤ c ∧ c ≤ 'Z'

def isDigit09 (c : Char) : Bool := '0' ≤ c ∧ c ≤ '9'

/-- Try to match `conv_([A-Z]+-\d+)_` anchored at the head of `l`, returning
the capture group.  Because `[A-Z]` excludes `-` and `\d` excludes `_`, the
greedy runs are forced and matching is deterministic. -/
def convMatchAt (l : List Char) : Option String :=
  if "conv_".data.isPrefixOf l then
    let rest := l.drop 5
    let u := rest.takeWhile isUpperAZ
    if u.isEmpty then none
    else
      match rest.dropWhile isUpperAZ with
      | '-' :: rest2 =>
        let d := rest2.takeWhile isDigit09
        if d.isEmpty then none
        else
          match rest2.dropWhile isDigit09 with
          | '_' :: _ => some (String.mk (u ++ '-' :: d))
          | _ => none
      | _ => none
  else none

def findConvIDAux : List Char → Option String
  | [] => none
  | c :: rest =>
    match convMatchAt (c :: rest) with
    | some s => some s
    | none => findConvIDAux rest

/-- Model of `convFilePattern.FindStringSubmatch` (main.go lines 44 and 183):
the capture group of the leftmost match of `conv_([A-Z]+-\d+)_`, if any. -/
def findConvID (fileName : String) : Option String := findConvIDAux fileName.data

/-! ### Data model (main.go lines 24-41) -/

/-- One chat message (main.go lines 24-28). -/
structure Message where
  UserID : String
  Text : String
  Timestamp : String
  deriving DecidableEq

/-- One parsed transcript (main.go lines 30-32). -/
structure ConversationChat where
  Messages : List Message
  deriving DecidableEq

/-- The classification result for one dialog folder (main.go lines 35-41). -/
structure ProblematicDialog where
  FolderName : String
  ID : String
  Types : List String
  Files : List String
  Triggers : List String
  deriving DecidableEq

/-- The mutable scan state of `analyzeDialogFolder` (main.go lines 173-175):
`dialogID` starts as the empty Go zero string, `foundTypes` is the key set of
the `map[string]bool` in insertion order, `foundTriggers` the trigger slice. -/
structure ScanState where
  dialogID : String
  foundTypes : List String
  foundTriggers : List String
  deriving DecidableEq

def initialScanState : ScanState :=
  { dialogID := "", foundTypes := [], foundTriggers := [] }

/-! ### The dialog scanner (main.go lines 160-256) -/

/-- Key-set insertion for the `foundTypes` map (main.go line 217): setting
`foundTypes[typeKey] = true` adds the key exactly when it is absent. -/
def insertKey (ks : List String) (k : String) : List String :=
  if k ∈ ks then ks else ks ++ [k]

/-- Trigger recording (main.go lines 219-230): append `m` unless some already
recorded trigger equals it under `strings.EqualFold`. -/
def addTrigger (ts : List String) (m : String) : List String :=
  if ts.any (fun t => goEqualFold t m) then ts else ts ++ [m]

/-- One message scan step (main.go lines 202-232): non-client messages (user
id without the `user_` marker) are skipped; otherwise the text is lower-cased
once and every configured problem type is matched against it, recording the
type and its matched trigger strings. -/
def processMessage (pts : List String) (fpm : String → String → List String)
    (st : ScanState) (msg : Message) : ScanState :=
  if goHasPrefix "user_" msg.UserID then
    let text := goToLower msg.Text
    pts.foldl
      (fun st2 typeKey =>
        let ms := fpm text typeKey
        if ms.isEmpty then st2
        else
          { st2 with
            foundTypes := insertKey st2.foundTypes typeKey
            foundTriggers := ms.foldl addTrigger st2.foundTriggers })
      st
  else st

/-- One file step of the folder scan (main.go lines 177-233): only files whose
name contains `_chat.json` are considered; the dialog id is overwritten from
the file name (pattern capture, or the folder name when the pattern fails)
before the file is read; a read or parse failure skips the file's messages. -/
def processFile (pts : List String) (fpm : String → String → List String)
    (rf : String → Option ConversationChat) (folderName : String)
    (st : ScanState) (fileName : String) : ScanState :=
  if goContains fileName "_chat.json" then
    let st1 :=
      match findConvID fileName with
      | some id => { st with dialogID := id }
      | none => { st with dialogID := folderName }
    match rf fileName with
    | none => st1
    | some chat => chat.Messages.foldl (processMessage pts fpm) st1
  else st

/-- Model of `sort.Strings` (main.go line 244): ascending byte order.  Go's
sort is not stable, but on a duplicate-free list every correct sort produces
the same unique sorted arrangement, so insertion sort is a faithful model on
the duplicate-free `foundTypes` key list. -/
def sortStrings (l : List String) : List String :=
  List.insertionSort (fun a b => lexLe a.data b.data = true) l

/-- Model of `analyzeDialogFolder` (main.go lines 160-256).  `listing` is the
`ioutil.ReadDir` outcome for the folder, `rf` the read-plus-parse outcome per
file name. -/
def analyzeDialogFolder (pts : List String) (fpm : String → String → List String)
    (rf : String → Option ConversationChat) (listing : Option (List String))
    (folderName : String) : Option ProblematicDialog :=
  match listing with
  | none => none
  | some fileNames =>
    let st := fileNames.foldl (processFile pts fpm rf folderName) initialScanState
    if st.foundTypes.isEmpty then none
    else
      some
        { FolderName := folderName
          ID := st.dialogID
          Types := sortStrings st.foundTypes
          Files := fileNames
          Triggers := st.foundTriggers }

/-! ### The orchestrator's folder listing (main.go lines 69-94) -/

/-- One entry returned by `ioutil.ReadDir` on the input root. -/
structure DirEntry where
  name : String
  isDir : Bool
  deriving DecidableEq

/-- Model of the dispatch phase of `main` (main.go lines 69-94): a listing
error aborts the run before any folder is scanned (`none`); otherwise every
entry that is a directory is scanned (non-directory entries are passed over
by the `continue` at line 82) and each scanned folder's result is produced. -/
def runClassification (scan : String → Option ProblematicDialog)
    (listing : Option (List DirEntry)) : Option (List (String × Option ProblematicDialog)) :=
  match listing with
  | none => none
  | some entries =>
    some ((entries.filter (fun e => e.isDir)).map (fun e => (e.name, scan e.name)))

/-! ### The aggregation loop (main.go lines 102-150) -/

/-- Point-wise increment of a counter map at key `k` (`stats[typeKey]++`). -/
def bumpCount (m : String → Nat) (k : String) : String → Nat :=
  fun s => if s = k then m s + 1 else m s

/-- The aggregate state of `main` (main.go lines 103-104): `stats` is the
per-type dialog count, `allDialogs` the per-type dialog list. -/
structure AggState where
  stats : String → Nat
  allDialogs : String → List ProblematicDialog

/-- Consuming one dialog from the channel (main.go lines 107-150): for every
matched type the count is incremented first (line 110); when creating the
per-dialog output directory fails (`mkdirOK` false) the `continue` at line
116 skips the rest of the body, so the dialog is not appended to
`allDialogs[typeKey]` (line 148).  File-copy and report-write failures do not
skip the append and do not touch the aggregate, so they need no parameter. -/
def aggStep (mkdirOK : String → String → Bool) (acc : AggState)
    (d : ProblematicDialog) : AggState :=
  d.Types.foldl
    (fun a typeKey =>
      let newStats := bumpCount a.stats typeKey
      if mkdirOK typeKey d.FolderName then
        { stats := newStats
          allDialogs := fun s =>
            if s = typeKey then a.allDialogs s ++ [d] else a.allDialogs s }
      else { stats := newStats, allDialogs := a.allDialogs })
    acc

/-- The whole aggregation loop over the arrival-ordered list of dialogs that
reached the channel. -/
def runAggregation (mkdirOK : String → String → Bool)
    (dialogs : List ProblematicDialog) : AggState :=
  dialogs.foldl (aggStep mkdirOK) { stats := fun _ => 0, allDialogs := fun _ => [] }

/-- All type keys contributed by the dialogs, with multiplicity. -/
def allTypeOccurrences (dialogs : List ProblematicDialog) : List String :=
  (dialogs.map ProblematicDialog.Types).flatten

/-- The reported total (main.go lines 278-282): the sum of `stats[t]` over the
distinct type keys that occur. -/
def totalStats (mkdirOK : String → String → Bool)
    (dialogs : List ProblematicDialog) : Nat :=
  (((allTypeOccurrences dialogs).dedup).map (runAggregation mkdirOK dialogs).stats).sum

/-! ### Trigger frequency accumulation (main.go lines 304-312) -/

/-- Model of the `triggerStats` accumulation in `printStatistics` (main.go
lines 304-312): `allDialogs` is the entry list of the per-type dialog map in
some iteration order; `triggerStats[trigger]++` keys by the trigger string
exactly as recorded. -/
def computeTriggerStats (allDialogs : List (String × List ProblematicDialog)) :
    String → Nat :=
  allDialogs.foldl
    (fun m p => p.2.foldl (fun m2 d => d.Triggers.foldl bumpCount m2) m)
    (fun _ => 0)

/-- Modelled from the spec: the same accumulation, but keyed by the case-fold
normalization of each trigger, following the spec's words that the global
frequency map increments `triggerFrequency[normalizedTrigger]` with
normalization = case fold.  Written for comparison with
`computeTriggerStats`, which is the model of the source. -/
def specTriggerStats (allDialogs : List (String × List ProblematicDialog)) :
    String → Nat :=
  allDialogs.foldl
    (fun m p =>
      p.2.foldl (fun m2 d => d.Triggers.foldl (fun m3 t => bumpCount m3 (goToLower t)) m2) m)
    (fun _ => 0)

/-- The trigger occurrences the accumulation walks over, with multiplicity:
one pass per (type, dialog) entry of the map. -/
def flatTriggerOccurrences (allDialogs : List (String × List ProblematicDialog)) :
    List String :=
  (((allDialogs.map Prod.snd).flatten).map ProblematicDialog.Triggers).flatten

/-! ### Type ranking (main.go lines 263-276) -/

/-- The guarantee Go's `sort.Slice` gives for the comparator
`statsList[i].Count > statsList[j].Count` (main.go lines 274-276): the output
is a permutation of the input arranged in non-increasing count order.
`sort.Slice` is documented as not stable, so no more can be assumed. -/
def sortSliceGuarantee (out entries : List (String × Nat)) : Prop :=
  out.Perm entries ∧ out.Pairwise (fun a b => b.2 ≤ a.2)

/-- The possible outcomes of the ranking built in `printStatistics` (main.go
lines 269-276): `statsList` is filled by ranging over the `stats` map, whose
iteration order Go leaves unspecified (any permutation of the entries), and
is then sorted with the unstable `sort.Slice`. -/
def possibleTypeRanking (stats out : List (String × Nat)) : Prop :=
  ∃ entries, entries.Perm stats ∧ sortSliceGuarantee out entries

/-- One concrete descending sort, a representative of what `sort.Slice` may
do to one concrete map-iteration order. -/
def rankTypesDesc (entries : List (String × Nat)) : List (String × Nat) :=
  List.insertionSort (fun a b => b.2 ≤ a.2) entries

/-! ### Characterizations used by the theorems -/

/-- A message is client-authored (main.go line 204). -/
def isClientMessage (msg : Message) : Bool := goHasPrefix "user_" msg.UserID

/-- Problem type `tk` matches message `msg`: the message is client-authored
and the pattern matcher returns at least one trigger on the lower-cased text. -/
def messageMatches (fpm : String → String → List String) (tk : String)
    (msg : Message) : Bool :=
  isClientMessage msg && !(fpm (goToLower msg.Text) tk).isEmpty

/-- Problem type `tk` matches transcript file `f` of the folder: the file is a
chat transcript, it reads and parses, and some of its messages matches. -/
def fileMatches (fpm : String → String → List String)
    (rf : String → Option ConversationChat) (tk : String) (f : String) : Bool :=
  goContains f "_chat.json" &&
    match rf f with
    | none => false
    | some chat => chat.Messages.any (messageMatches fpm tk)

/-- Problem type `tk` matches somewhere in the folder. -/
def folderMatches (fpm : String → String → List String)
    (rf : String → Option ConversationChat) (fileNames : List String)
    (tk : String) : Bool :=
  fileNames.any (fileMatches fpm rf tk)

/-- The `foundTypes` component of one message step, as a standalone list
transformer (the projection of `processMessage`). -/
def msgTypes (pts : List String) (fpm : String → String → List String)
    (msg : Message) (acc : List String) : List String :=
  if goHasPrefix "user_" msg.UserID then
    pts.foldl
      (fun a typeKey =>
        if (fpm (goToLower msg.Text) typeKey).isEmpty then a else insertKey a typeKey)
      acc
  else acc

/-- The `foundTriggers` component of one message step. -/
def msgTriggers (pts : List String) (fpm : String → String → List String)
    (msg : Message) (acc : List String) : List String :=
  if goHasPrefix "user_" msg.UserID then
    pts.foldl
      (fun a typeKey =>
        if (fpm (goToLower msg.Text) typeKey).isEmpty then a
        else (fpm (goToLower msg.Text) typeKey).foldl addTrigger a)
      acc
  else acc

/-- The `foundTypes` component of one file step. -/
def fileTypes (pts : List String) (fpm : String → String → List String)
    (rf : String → Option ConversationChat) (f : String)
    (acc : List String) : List String :=
  if goContains f "_chat.json" then
    match rf f with
    | none => acc
    | some chat => chat.Messages.foldl (fun a m => msgTypes pts fpm m a) acc
  else acc

/-- The `foundTriggers` component of one file step. -/
def fileTriggers (pts : List String) (fpm : String → String → List String)
    (rf : String → Option ConversationChat) (f : String)
    (acc : List String) : List String :=
  if goContains f "_chat.json" then
    match rf f with
    | none => acc
    | some chat => chat.Messages.foldl (fun a m => msgTriggers pts fpm m a) acc
  else acc

/-- The `dialogID` component of one file step (main.go lines 182-189): every
chat file overwrites the id, with the folder name as the fallback. -/
def fileIDUpdate (folderName : String) (id : String) (f : String) : String :=
  if goContains f "_chat.json" then
    match findConvID f with
    | some i => i
    | none => folderName
  else id

/-- The dialog id the scan ends with: the last chat file's extraction (or the
folder-name fallback), starting from the Go zero string. -/
def lastChatID (folderName : String) (fileNames : List String) : String :=
  fileNames.foldl (fileIDUpdate folderName) ""

end DialogClassifier

namespace DialogClassifier

/-! ### Projection lemmas: the scan state components evolve independently -/

/-- One message step splits into independent component transformers. -/
theorem processMessage_eta (pts : List String) (fpm : String → String → List String)
    (st : ScanState) (msg : Message) :
    processMessage pts fpm st msg =
      { dialogID := st.dialogID
        foundTypes := msgTypes pts fpm msg st.foundTypes
        foundTriggers := msgTriggers pts fpm msg st.foundTriggers } := by
  unfold processMessage msgTypes msgTriggers
  cases h : goHasPrefix "user_" msg.UserID with
  | false => simp
  | true =>
    simp only [if_true]
    induction pts generalizing st with
    | nil => rfl
    | cons tk rest ih =>
      simp only [List.foldl_cons]
      rw [ih]
      cases he : (fpm (goToLower msg.Text) tk).isEmpty <;> simp [he]

/-- A whole transcript's message fold splits into component folds. -/
theorem foldMessages_eta (pts : List String) (fpm : String → String → List String)
    (msgs : List Message) (st : ScanState) :
    msgs.foldl (processMessage pts fpm) st =
      { dialogID := st.dialogID
        foundTypes := msgs.foldl (fun a m => msgTypes pts fpm m a) st.foundTypes
        foundTriggers := msgs.foldl (fun a m => msgTriggers pts fpm m a) st.foundTriggers } := by
  induction msgs generalizing st with
  | nil => rfl
  | cons m rest ih =>
    simp only [List.foldl_cons]
    rw [processMessage_eta, ih]

/-- One file step splits into component transformers; only the chat marker,
the id pattern and the per-file read outcome are consulted. -/
theorem processFile_eta (pts : List String) (fpm : String → String → List String)
    (rf : String → Option ConversationChat) (n : String) (st : ScanState) (f : String) :
    processFile pts fpm rf n st f =
      { dialogID := fileIDUpdate n st.dialogID f
        foundTypes := fileTypes pts fpm rf f st.foundTypes
        foundTriggers := fileTriggers pts fpm rf f st.foundTriggers } := by
  unfold processFile fileIDUpdate fileTypes fileTriggers
  cases h : goContains f "_chat.json" with
  | false => simp
  | true =>
    simp only [if_true]
    cases hrf : rf f with
    | none => cases hid : findConvID f <;> simp
    | some chat =>
      cases hid : findConvID f <;> (dsimp only; rw [foldMessages_eta])

/-- The whole folder scan splits into component folds. -/
theorem scanFold_eta (pts : List String) (fpm : String → String → List String)
    (rf : String → Option ConversationChat) (n : String) (fns : List String)
    (st : ScanState) :
    fns.foldl (processFile pts fpm rf n) st =
      { dialogID := fns.foldl (fileIDUpdate n) st.dialogID
        foundTypes := fns.foldl (fun a f => fileTypes pts fpm rf f a) st.foundTypes
        foundTriggers := fns.foldl (fun a f => fileTriggers pts fpm rf f a) st.foundTriggers } := by
  induction fns generalizing st with
  | nil => rfl
  | cons f rest ih =>
    simp only [List.foldl_cons]
    rw [processFile_eta, ih]

end DialogClassifier

namespace DialogClassifier

/-! ### Membership and duplicate-freeness of the found type keys -/

theorem mem_insertKey (ks : List String) (k x : String) :
    x ∈ insertKey ks k ↔ x ∈ ks ∨ x = k := by
  unfold insertKey
  by_cases h : k ∈ ks
  · rw [if_pos h]
    constructor
    · exact Or.inl
    · rintro (hx | rfl)
      · exact hx
      · exact h
  · rw [if_neg h]
    simp

theorem insertKey_nodup (ks : List String) (k : String) (h : ks.Nodup) :
    (insertKey ks k).Nodup := by
  unfold insertKey
  by_cases hk : k ∈ ks
  · simpa [hk] using h
  · simp [hk, List.nodup_append, h]

theorem mem_msgTypes (pts : List String) (fpm : String → String → List String)
    (msg : Message) (acc : List String) (x : String) :
    x ∈ msgTypes pts fpm msg acc ↔
      x ∈ acc ∨ (x ∈ pts ∧ messageMatches fpm x msg = true) := by
  unfold msgTypes messageMatches isClientMessage
  cases h : goHasPrefix "user_" msg.UserID with
  | false => simp
  | true =>
    simp only [if_true, Bool.true_and]
    induction pts generalizing acc with
    | nil => simp
    | cons tk rest ih =>
      simp only [List.foldl_cons, List.mem_cons]
      rw [ih]
      cases he : (fpm (goToLower msg.Text) tk).isEmpty with
      | true =>
        simp only [if_true]
        constructor
        · rintro (hx | ⟨hr, hp⟩)
          · exact Or.inl hx
          · exact Or.inr ⟨Or.inr hr, hp⟩
        · rintro (hx | ⟨rfl | hr, hp⟩)
          · exact Or.inl hx
          · rw [he] at hp
            simp at hp
          · exact Or.inr ⟨hr, hp⟩
      | false =>
        simp only [Bool.false_eq_true, if_false]
        rw [mem_insertKey]
        constructor
        · rintro ((hx | rfl) | ⟨hr, hp⟩)
          · exact Or.inl hx
          · exact Or.inr ⟨Or.inl rfl, by simp [he]⟩
          · exact Or.inr ⟨Or.inr hr, hp⟩
        · rintro (hx | ⟨rfl | hr, hp⟩)
          · exact Or.inl (Or.inl hx)
          · exact Or.inl (Or.inr rfl)
          · exact Or.inr ⟨hr, hp⟩

theorem mem_foldMsgTypes (pts : List String) (fpm : String → String → List String)
    (msgs : List Message) (acc : List String) (x : String) :
    x ∈ msgs.foldl (fun a m => msgTypes pts fpm m a) acc ↔
      x ∈ acc ∨ (x ∈ pts ∧ msgs.any (messageMatches fpm x) = true) := by
  induction msgs generalizing acc with
  | nil => simp
  | cons m rest ih =>
    simp only [List.foldl_cons, List.any_cons, Bool.or_eq_true]
    rw [ih, mem_msgTypes]
    tauto

theorem mem_fileTypes (pts : List String) (fpm : String → String → List String)
    (rf : String → Option ConversationChat) (f : String) (acc : List String)
    (x : String) :
    x ∈ fileTypes pts fpm rf f acc ↔
      x ∈ acc ∨ (x ∈ pts ∧ fileMatches fpm rf x f = true) := by
  unfold fileTypes fileMatches
  cases h : goContains f "_chat.json" with
  | false => simp
  | true =>
    cases hrf : rf f with
    | none => simp
    | some chat =>
      rw [if_pos rfl, mem_foldMsgTypes]
      simp

theorem mem_scanTypes (pts : List String) (fpm : String → String → List String)
    (rf : String → Option ConversationChat) (fns : List String)
    (acc : List String) (x : String) :
    x ∈ fns.foldl (fun a f => fileTypes pts fpm rf f a) acc ↔
      x ∈ acc ∨ (x ∈ pts ∧ folderMatches fpm rf fns x = true) := by
  unfold folderMatches
  induction fns generalizing acc with
  | nil => simp
  | cons f rest ih =>
    simp only [List.foldl_cons, List.any_cons, Bool.or_eq_true]
    rw [ih, mem_fileTypes]
    tauto

theorem msgTypes_nodup (pts : List String) (fpm : String → String → List String)
    (msg : Message) (acc : List String) (h : acc.Nodup) :
    (msgTypes pts fpm msg acc).Nodup := by
  unfold msgTypes
  cases hc : goHasPrefix "user_" msg.UserID with
  | false => simpa using h
  | true =>
    simp only [if_true]
    induction pts generalizing acc with
    | nil => simpa using h
    | cons tk rest ih =>
      simp only [List.foldl_cons]
      cases he : (fpm (goToLower msg.Text) tk).isEmpty with
      | true => simpa only [if_true] using ih acc h
      | false =>
        simp only [Bool.false_eq_true, if_false]
        exact ih (insertKey acc tk) (insertKey_nodup acc tk h)

theorem foldMsgTypes_nodup (pts : List String) (fpm : String → String → List String)
    (msgs : List Message) (acc : List String) (h : acc.Nodup) :
    (msgs.foldl (fun a m => msgTypes pts fpm m a) acc).Nodup := by
  induction msgs generalizing acc with
  | nil => simpa using h
  | cons m rest ih =>
    simp only [List.foldl_cons]
    exact ih _ (msgTypes_nodup pts fpm m acc h)

theorem fileTypes_nodup (pts : List String) (fpm : String → String → List String)
    (rf : String → Option ConversationChat) (f : String) (acc : List String)
    (h : acc.Nodup) : (fileTypes pts fpm rf f acc).Nodup := by
  unfold fileTypes
  cases hc : goContains f "_chat.json" with
  | false => simpa using h
  | true =>
    cases hrf : rf f with
    | none => simpa using h
    | some chat => exact foldMsgTypes_nodup pts fpm chat.Messages acc h

theorem scanTypes_nodup (pts : List String) (fpm : String → String → List String)
    (rf : String → Option ConversationChat) (fns : List String)
    (acc : List String) (h : acc.Nodup) :
    (fns.foldl (fun a f => fileTypes pts fpm rf f a) acc).Nodup := by
  induction fns generalizing acc with
  | nil => simpa using h
  | cons f rest ih =>
    simp only [List.foldl_cons]
    exact ih _ (fileTypes_nodup pts fpm rf f acc h)

end DialogClassifier

namespace DialogClassifier

/-! ### Order properties of the byte-wise string comparison -/

theorem lexLe_total (as : List Char) : ∀ bs, lexLe as bs = true ∨ lexLe bs as = true := by
  induction as with
  | nil => intro bs; left; rfl
  | cons a as ih =>
    intro bs
    cases bs with
    | nil => right; rfl
    | cons b bs =>
      by_cases h1 : a < b
      · left; simp [lexLe, h1]
      · by_cases h2 : b < a
        · right; simp [lexLe, h2]
        · rcases ih bs with h | h
          · left; simp [lexLe, h1, h2, h]
          · right; simp [lexLe, h1, h2, h]

theorem lexLe_trans (as : List Char) :
    ∀ bs cs, lexLe as bs = true → lexLe bs cs = true → lexLe as cs = true := by
  induction as with
  | nil => intro bs cs _ _; rfl
  | cons a as ih =>
    intro bs cs hab hbc
    cases bs with
    | nil => simp [lexLe] at hab
    | cons b bs =>
      cases cs with
      | nil => simp [lexLe] at hbc
      | cons c cs =>
        by_cases h1 : a < b
        · by_cases h3 : b < c
          · simp [lexLe, lt_trans h1 h3]
          · by_cases h4 : c < b
            · simp [lexLe, h3, h4] at hbc
            · have hbc' : b = c := le_antisymm (not_lt.mp h4) (not_lt.mp h3)
              subst hbc'
              simp [lexLe, h1]
        · by_cases h2 : b < a
          · simp [lexLe, h1, h2] at hab
          · have hab' : a = b := le_antisymm (not_lt.mp h2) (not_lt.mp h1)
            subst hab'
            by_cases h3 : a < c
            · simp [lexLe, h3]
            · by_cases h4 : c < a
              · simp [lexLe, h3, h4] at hbc
              · simp only [lexLe, if_neg h1, if_neg h2] at hab
                simp only [lexLe, if_neg h3, if_neg h4] at hbc
                simp [lexLe, h3, h4, ih bs cs hab hbc]

theorem lexLe_antisymm (as : List Char) :
    ∀ bs, lexLe as bs = true → lexLe bs as = true → as = bs := by
  induction as with
  | nil =>
    intro bs _ hba
    cases bs with
    | nil => rfl
    | cons b bs => simp [lexLe] at hba
  | cons a as ih =>
    intro bs hab hba
    cases bs with
    | nil => simp [lexLe] at hab
    | cons b bs =>
      by_cases h1 : a < b
      · simp [lexLe, h1, lt_asymm h1] at hba
      · by_cases h2 : b < a
        · simp [lexLe, h1, h2] at hab
        · have hab' : a = b := le_antisymm (not_lt.mp h2) (not_lt.mp h1)
          subst hab'
          simp only [lexLe, if_neg h1, if_neg h2] at hab hba
          rw [ih bs hab hba]

theorem sortStrings_perm (l : List String) : (sortStrings l).Perm l :=
  List.perm_insertionSort _ l

theorem sortStrings_sorted (l : List String) :
    (sortStrings l).Pairwise (fun a b => lexLe a.data b.data = true) := by
  haveI : IsTotal String (fun a b => lexLe a.data b.data = true) :=
    ⟨fun a b => lexLe_total a.data b.data⟩
  haveI : IsTrans String (fun a b => lexLe a.data b.data = true) :=
    ⟨fun a b c hab hbc => lexLe_trans a.data b.data c.data hab hbc⟩
  exact List.sorted_insertionSort _ l

theorem sortStrings_eq_of_perm (l1 l2 : List String) (h : l1.Perm l2) :
    sortStrings l1 = sortStrings l2 := by
  haveI : IsAntisymm String (fun a b => lexLe a.data b.data = true) :=
    ⟨fun a b hab hba => String.ext (lexLe_antisymm a.data b.data hab hba)⟩
  exact List.eq_of_perm_of_sorted
    ((sortStrings_perm l1).trans (h.trans (sortStrings_perm l2).symm))
    (sortStrings_sorted l1) (sortStrings_sorted l2)

theorem sortStrings_nodup (l : List String) (h : l.Nodup) : (sortStrings l).Nodup :=
  ((sortStrings_perm l).nodup_iff).mpr h

theorem mem_sortStrings (l : List String) (x : String) :
    x ∈ sortStrings l ↔ x ∈ l :=
  (sortStrings_perm l).mem_iff

end DialogClassifier

namespace DialogClassifier

/-! ### Case-insensitive duplicate-freeness of the recorded triggers -/

theorem addTrigger_pairwise (ts : List String) (m : String)
    (h : ts.Pairwise (fun a b => goEqualFold a b = false)) :
    (addTrigger ts m).Pairwise (fun a b => goEqualFold a b = false) := by
  unfold addTrigger
  cases ha : ts.any (fun t => goEqualFold t m) with
  | true => simpa using h
  | false =>
    simp only [Bool.false_eq_true, if_false]
    rw [List.pairwise_append]
    refine ⟨h, List.pairwise_singleton _ _, ?_⟩
    intro a hamem b hbmem
    rw [List.mem_singleton] at hbmem
    subst hbmem
    have := List.any_eq_false.mp ha a hamem
    simpa using this

theorem foldlAddTrigger_pairwise (ms : List String) (ts : List String)
    (h : ts.Pairwise (fun a b => goEqualFold a b = false)) :
    (ms.foldl addTrigger ts).Pairwise (fun a b => goEqualFold a b = false) := by
  induction ms generalizing ts with
  | nil => simpa using h
  | cons m rest ih =>
    simp only [List.foldl_cons]
    exact ih _ (addTrigger_pairwise ts m h)

theorem msgTriggers_pairwise (pts : List String) (fpm : String → String → List String)
    (msg : Message) (acc : List String)
    (h : acc.Pairwise (fun a b => goEqualFold a b = false)) :
    (msgTriggers pts fpm msg acc).Pairwise (fun a b => goEqualFold a b = false) := by
  unfold msgTriggers
  cases hc : goHasPrefix "user_" msg.UserID with
  | false => simpa using h
  | true =>
    simp only [if_true]
    induction pts generalizing acc with
    | nil => simpa using h
    | cons tk rest ih =>
      simp only [List.foldl_cons]
      cases he : (fpm (goToLower msg.Text) tk).isEmpty with
      | true => simpa only [if_true] using ih acc h
      | false =>
        simp only [Bool.false_eq_true, if_false]
        exact ih _ (foldlAddTrigger_pairwise _ acc h)

theorem foldMsgTriggers_pairwise (pts : List String) (fpm : String → String → List String)
    (msgs : List Message) (acc : List String)
    (h : acc.Pairwise (fun a b => goEqualFold a b = false)) :
    (msgs.foldl (fun a m => msgTriggers pts fpm m a) acc).Pairwise
      (fun a b => goEqualFold a b = false) := by
  induction msgs generalizing acc with
  | nil => simpa using h
  | cons m rest ih =>
    simp only [List.foldl_cons]
    exact ih _ (msgTriggers_pairwise pts fpm m acc h)

theorem fileTriggers_pairwise (pts : List String) (fpm : String → String → List String)
    (rf : String → Option ConversationChat) (f : String) (acc : List String)
    (h : acc.Pairwise (fun a b => goEqualFold a b = false)) :
    (fileTriggers pts fpm rf f acc).Pairwise (fun a b => goEqualFold a b = false) := by
  unfold fileTriggers
  cases hc : goContains f "_chat.json" with
  | false => simpa using h
  | true =>
    cases hrf : rf f with
    | none => simpa using h
    | some chat => exact foldMsgTriggers_pairwise pts fpm chat.Messages acc h

theorem scanTriggers_pairwise (pts : List String) (fpm : String → String → List String)
    (rf : String → Option ConversationChat) (fns : List String) (acc : List String)
    (h : acc.Pairwise (fun a b => goEqualFold a b = false)) :
    (fns.foldl (fun a f => fileTriggers pts fpm rf f a) acc).Pairwise
      (fun a b => goEqualFold a b = false) := by
  induction fns generalizing acc with
  | nil => simpa using h
  | cons f rest ih =>
    simp only [List.foldl_cons]
    exact ih _ (fileTriggers_pairwise pts fpm rf f acc h)

/-! ### A concrete folder used by the witnesses and counterexamples -/

/-- Example configuration: one problem type. -/
def exPts : List String := ["refund"]

/-- Example pattern matcher: the single pattern `refund`, matched by substring
containment on the lower-cased text (the whole-word subtlety of the real
matcher is irrelevant to the examples, whose texts contain the word exactly). -/
def exFpm : String → String → List String :=
  fun text tk => if tk == "refund" && goContains text "refund" then ["refund"] else []

/-- Example transcript: two client messages with case-insensitively equal
triggers, one operator message. -/
def exChat1 : ConversationChat :=
  { Messages :=
      [ { UserID := "user_7", Text := "I want a Refund now", Timestamp := "t1" }
      , { UserID := "op_1", Text := "refund denied", Timestamp := "t2" }
      , { UserID := "user_7", Text := "refund please", Timestamp := "t3" } ] }

/-- Example per-file read outcomes: the first chat file parses, the second
fails to read, the third parses to an empty message list. -/
def exRf : String → Option ConversationChat :=
  fun f =>
    if f == "conv_AAA-1_chat.json" then some exChat1
    else if f == "bad_chat.json" then none
    else some { Messages := [] }

/-- Example folder listing, in the sorted order `ioutil.ReadDir` returns: a
chat file that fails to read, a chat file with an extractable id, a non-chat
file, and a chat file without the id pattern. -/
def exFns : List String :=
  ["bad_chat.json", "conv_AAA-1_chat.json", "conv_AAA-1_info.json", "zzz_chat.json"]

/-- The result the scanner produces on the example folder. -/
def exDialog : ProblematicDialog :=
  { FolderName := "FOLDER", ID := "FOLDER", Types := ["refund"], Files := exFns
    Triggers := ["refund"] }

end DialogClassifier

namespace DialogClassifier

/-! ### Destructuring the scanner result -/

/-- When the scan yields a result, every field is the corresponding component
fold over the folder's file list. -/
theorem analyze_some_eq (pts : List String) (fpm : String → String → List String)
    (rf : String → Option ConversationChat) (fns : List String) (n : String)
    (d : ProblematicDialog)
    (h : analyzeDialogFolder pts fpm rf (some fns) n = some d) :
    d = { FolderName := n
          ID := fns.foldl (fileIDUpdate n) ""
          Types := sortStrings (fns.foldl (fun a f => fileTypes pts fpm rf f a) [])
          Files := fns
          Triggers := fns.foldl (fun a f => fileTriggers pts fpm rf f a) [] } := by
  unfold analyzeDialogFolder at h
  dsimp only at h
  rw [scanFold_eta] at h
  dsimp only [initialScanState] at h
  split at h
  · simp at h
  · exact (Option.some.inj h).symm

/-- Whether the scan yields a result is decided by the found type keys alone. -/
theorem analyze_isSome_eq (pts : List String) (fpm : String → String → List String)
    (rf : String → Option ConversationChat) (fns : List String) (n : String) :
    (analyzeDialogFolder pts fpm rf (some fns) n).isSome =
      !(fns.foldl (fun a f => fileTypes pts fpm rf f a) ([] : List String)).isEmpty := by
  unfold analyzeDialogFolder
  dsimp only
  rw [scanFold_eta]
  dsimp only [initialScanState]
  cases hX : (fns.foldl (fun a f => fileTypes pts fpm rf f a) ([] : List String)).isEmpty <;>
    simp [hX]

/-- The scan yields no result exactly when no configured type matches the
folder anywhere. -/
theorem analyze_eq_none_iff (pts : List String) (fpm : String → String → List String)
    (rf : String → Option ConversationChat) (fns : List String) (n : String) :
    analyzeDialogFolder pts fpm rf (some fns) n = none ↔
      ∀ tk ∈ pts, folderMatches fpm rf fns tk = false := by
  unfold analyzeDialogFolder
  dsimp only
  rw [scanFold_eta]
  dsimp only [initialScanState]
  cases hX : (fns.foldl (fun a f => fileTypes pts fpm rf f a) ([] : List String)).isEmpty with
  | true =>
    have hnil : fns.foldl (fun a f => fileTypes pts fpm rf f a) ([] : List String) = [] := by
      simpa [List.isEmpty_iff] using hX
    simp only [hX, if_true, true_iff]
    intro tk htk
    by_contra hfm
    have hmem : tk ∈ fns.foldl (fun a f => fileTypes pts fpm rf f a) ([] : List String) :=
      (mem_scanTypes pts fpm rf fns [] tk).mpr
        (Or.inr ⟨htk, by simpa using hfm⟩)
    rw [hnil] at hmem
    simp at hmem
  | false =>
    have hne : fns.foldl (fun a f => fileTypes pts fpm rf f a) ([] : List String) ≠ [] := by
      simpa [List.isEmpty_iff] using hX
    simp only [hX, Bool.false_eq_true, if_false]
    constructor
    · intro h
      simp at h
    · intro hall
      obtain ⟨x, hx⟩ := List.exists_mem_of_ne_nil _ hne
      rcases (mem_scanTypes pts fpm rf fns [] x).mp hx with hx0 | ⟨hxp, hxm⟩
      · simp at hx0
      · rw [hall x hxp] at hxm
        simp at hxm

/-! ### Claim theorems: scanner behavior -/

/-- Claim C1, amended: the dialog id recorded in the scanner's result is the
one left by the LAST transcript file in listing order: every file whose name
contains the `_chat.json` marker overwrites the id with its own pattern
extraction, or with the folder name when its name lacks the `conv_<ID>_`
pattern; the first successful extraction does not win. -/
theorem claim_c1_last_extraction (pts : List String)
    (fpm : String → String → List String) (rf : String → Option ConversationChat)
    (fns : List String) (n : String) (d : ProblematicDialog)
    (h : analyzeDialogFolder pts fpm rf (some fns) n = some d) :
    d.ID = lastChatID n fns := by
  rw [analyze_some_eq pts fpm rf fns n d h]
  rfl

/-- Claim C1, counterexample: in the example folder the first (and only)
successful extraction from a transcript filename yields `AAA-1`, yet the
recorded dialog id is the folder name `FOLDER`, because the later transcript
`zzz_chat.json` lacks the pattern and resets the id to the folder name.  This
refutes both that the first successful extraction wins and that the folder
name is used only when no transcript filename matches the pattern. -/
theorem claim_c1_counterexample :
    "conv_AAA-1_chat.json" ∈ exFns ∧
    findConvID "conv_AAA-1_chat.json" = some "AAA-1" ∧
    (∀ f ∈ exFns, goContains f "_chat.json" = true →
      f ≠ "conv_AAA-1_chat.json" → findConvID f = none) ∧
    analyzeDialogFolder exPts exFpm exRf (some exFns) "FOLDER" = some exDialog ∧
    exDialog.ID = "FOLDER" ∧ "FOLDER" ≠ "AAA-1" := by
  refine ⟨by decide, by decide, by decide, by decide, rfl, by decide⟩

/-- Claim C1, witness for the amended theorem at the example folder. -/
theorem claim_c1_witness : exDialog.ID = lastChatID "FOLDER" exFns :=
  claim_c1_last_extraction exPts exFpm exRf exFns "FOLDER" exDialog (by decide)

/-- Claim C4: within one folder's result no two recorded triggers are equal
under the case-insensitive comparison, and a newly matched trigger is dropped
exactly when a case-insensitive duplicate is already recorded (so the
first-seen casing stays). -/
theorem claim_c4_trigger_dedup (pts : List String)
    (fpm : String → String → List String) (rf : String → Option ConversationChat)
    (fns : List String) (n : String) (d : ProblematicDialog)
    (h : analyzeDialogFolder pts fpm rf (some fns) n = some d) :
    d.Triggers.Pairwise (fun a b => goEqualFold a b = false) ∧
      ∀ ts m, ts.any (fun t => goEqualFold t m) = true → addTrigger ts m = ts := by
  constructor
  · rw [analyze_some_eq pts fpm rf fns n d h]
    exact scanTriggers_pairwise pts fpm rf fns [] List.Pairwise.nil
  · intro ts m hm
    unfold addTrigger
    rw [if_pos hm]

/-- Claim C4, witness: the example folder sees the triggers `Refund` and
`refund` and records a single entry. -/
theorem claim_c4_witness :
    exDialog.Triggers.Pairwise (fun a b => goEqualFold a b = false) ∧
      ∀ ts m, ts.any (fun t => goEqualFold t m) = true → addTrigger ts m = ts :=
  claim_c4_trigger_dedup exPts exFpm exRf exFns "FOLDER" exDialog (by decide)

/-- Claim C6: a message whose author id does not carry the `user_` client
marker changes nothing in the scan state, and removing it from a transcript
does not change the scan of the remaining messages. -/
theorem claim_c6_nonclient_ignored (pts : List String)
    (fpm : String → String → List String) (st : ScanState) (msg : Message)
    (h : goHasPrefix "user_" msg.UserID = false) :
    processMessage pts fpm st msg = st ∧
      ∀ (msgs1 msgs2 : List Message) (st0 : ScanState),
        (msgs1 ++ msg :: msgs2).foldl (processMessage pts fpm) st0 =
          (msgs1 ++ msgs2).foldl (processMessage pts fpm) st0 := by
  have hid : ∀ s : ScanState, processMessage pts fpm s msg = s := by
    intro s
    unfold processMessage
    rw [h]
    simp
  refine ⟨hid st, ?_⟩
  intro msgs1 msgs2 st0
  rw [List.foldl_append, List.foldl_append, List.foldl_cons, hid]

/-- Claim C6, witness: the operator message of the example transcript is
ignored even though its text contains the configured pattern verbatim. -/
theorem claim_c6_witness :
    processMessage exPts exFpm initialScanState
        { UserID := "op_1", Text := "refund denied", Timestamp := "t2" } =
      initialScanState :=
  (claim_c6_nonclient_ignored exPts exFpm initialScanState
    { UserID := "op_1", Text := "refund denied", Timestamp := "t2" } (by decide)).1

/-- Claim C8: a failed folder listing makes the scanner return absent, and a
transcript that fails to read or parse is skipped: whether the folder yields
a result is unchanged when such a file is dropped from the listing, so the
other transcripts still decide the outcome. -/
theorem claim_c8_recoverable_errors (pts : List String)
    (fpm : String → String → List String) (rf : String → Option ConversationChat) :
    (∀ n, analyzeDialogFolder pts fpm rf none n = none) ∧
      ∀ (n : String) (fns1 fns2 : List String) (f : String), rf f = none →
        (analyzeDialogFolder pts fpm rf (some (fns1 ++ f :: fns2)) n).isSome =
          (analyzeDialogFolder pts fpm rf (some (fns1 ++ fns2)) n).isSome := by
  refine ⟨fun n => rfl, ?_⟩
  intro n fns1 fns2 f hf
  have hskip : ∀ acc : List String, fileTypes pts fpm rf f acc = acc := by
    intro acc
    unfold fileTypes
    rw [hf]
    split <;> rfl
  have htypes :
      (fns1 ++ f :: fns2).foldl (fun a g => fileTypes pts fpm rf g a) ([] : List String) =
        (fns1 ++ fns2).foldl (fun a g => fileTypes pts fpm rf g a) ([] : List String) := by
    rw [List.foldl_append, List.foldl_append, List.foldl_cons, hskip]
  rw [analyze_isSome_eq, analyze_isSome_eq, htypes]

/-- Claim C8, witness: in the example folder the unreadable `bad_chat.json`
does not change whether the folder yields a result. -/
theorem claim_c8_witness :
    analyzeDialogFolder exPts exFpm exRf none "FOLDER" = none ∧
      (analyzeDialogFolder exPts exFpm exRf
          (some (([] : List String) ++ "bad_chat.json" ::
            ["conv_AAA-1_chat.json", "conv_AAA-1_info.json", "zzz_chat.json"]))
          "FOLDER").isSome =
        (analyzeDialogFolder exPts exFpm exRf
          (some (([] : List String) ++
            ["conv_AAA-1_chat.json", "conv_AAA-1_info.json", "zzz_chat.json"]))
          "FOLDER").isSome :=
  ⟨(claim_c8_recoverable_errors exPts exFpm exRf).1 "FOLDER",
    (claim_c8_recoverable_errors exPts exFpm exRf).2 "FOLDER"
      [] ["conv_AAA-1_chat.json", "conv_AAA-1_info.json", "zzz_chat.json"]
      "bad_chat.json" (by decide)⟩

end DialogClassifier

namespace DialogClassifier

/-- Claim C5: the scanner returns absent exactly when no configured problem
type matched any client message across all of the folder's transcripts;
otherwise the result's matched type list is exactly the set of matching
configured types, sorted lexicographically and duplicate-free, and it does
not depend on the iteration order of the problem-type map. -/
theorem claim_c5_result_shape (pts : List String)
    (fpm : String → String → List String) (rf : String → Option ConversationChat)
    (fns : List String) (n : String) :
    (analyzeDialogFolder pts fpm rf (some fns) n = none ↔
        ∀ tk ∈ pts, folderMatches fpm rf fns tk = false) ∧
      (∀ d, analyzeDialogFolder pts fpm rf (some fns) n = some d →
        d.Types.Pairwise (fun a b => lexLe a.data b.data = true) ∧ d.Types.Nodup ∧
          ∀ tk, tk ∈ d.Types ↔ tk ∈ pts ∧ folderMatches fpm rf fns tk = true) ∧
      ∀ pts2, pts2.Perm pts →
        Option.map ProblematicDialog.Types (analyzeDialogFolder pts2 fpm rf (some fns) n) =
          Option.map ProblematicDialog.Types (analyzeDialogFolder pts fpm rf (some fns) n) := by
  refine ⟨analyze_eq_none_iff pts fpm rf fns n, ?_, ?_⟩
  · intro d h
    rw [analyze_some_eq pts fpm rf fns n d h]
    dsimp only
    refine ⟨sortStrings_sorted _, sortStrings_nodup _ ?_, ?_⟩
    · exact scanTypes_nodup pts fpm rf fns [] List.nodup_nil
    · intro tk
      rw [mem_sortStrings, mem_scanTypes]
      simp
  · intro pts2 hperm
    have hnodup : (fns.foldl (fun a f => fileTypes pts fpm rf f a) ([] : List String)).Nodup :=
      scanTypes_nodup pts fpm rf fns [] List.nodup_nil
    have hnodup2 : (fns.foldl (fun a f => fileTypes pts2 fpm rf f a) ([] : List String)).Nodup :=
      scanTypes_nodup pts2 fpm rf fns [] List.nodup_nil
    have hmem : ∀ x,
        x ∈ fns.foldl (fun a f => fileTypes pts2 fpm rf f a) ([] : List String) ↔
          x ∈ fns.foldl (fun a f => fileTypes pts fpm rf f a) ([] : List String) := by
      intro x
      rw [mem_scanTypes, mem_scanTypes]
      simp [hperm.mem_iff]
    have hp : (fns.foldl (fun a f => fileTypes pts2 fpm rf f a) ([] : List String)).Perm
        (fns.foldl (fun a f => fileTypes pts fpm rf f a) ([] : List String)) :=
      (List.perm_ext_iff_of_nodup hnodup2 hnodup).mpr hmem
    unfold analyzeDialogFolder
    dsimp only
    rw [scanFold_eta, scanFold_eta]
    dsimp only [initialScanState]
    cases hX : (fns.foldl (fun a f => fileTypes pts fpm rf f a) ([] : List String)).isEmpty with
    | true =>
      have h1 : fns.foldl (fun a f => fileTypes pts fpm rf f a) ([] : List String) = [] := by
        simpa [List.isEmpty_iff] using hX
      have h2 : fns.foldl (fun a f => fileTypes pts2 fpm rf f a) ([] : List String) = [] := by
        have hl := hp.length_eq
        rw [h1] at hl
        exact List.length_eq_zero.mp (by simpa using hl)
      simp [hX, h1, h2]
    | false =>
      have h2 : (fns.foldl (fun a f => fileTypes pts2 fpm rf f a) ([] : List String)).isEmpty
          = false := by
        cases hY : (fns.foldl (fun a f => fileTypes pts2 fpm rf f a) ([] : List String)).isEmpty with
        | false => rfl
        | true =>
          exfalso
          have h2nil : fns.foldl (fun a f => fileTypes pts2 fpm rf f a) ([] : List String) = [] := by
            simpa [List.isEmpty_iff] using hY
          have hl := hp.length_eq
          rw [h2nil] at hl
          have h1nil : fns.foldl (fun a f => fileTypes pts fpm rf f a) ([] : List String) = [] :=
            List.length_eq_zero.mp (by simpa using hl.symm)
          rw [h1nil] at hX
          simp at hX
      simp only [hX, h2, Bool.false_eq_true, if_false, Option.map_some']
      rw [sortStrings_eq_of_perm _ _ hp]

/-- Claim C5, witness: on the example folder the matched type list is the
same for two opposite iteration orders of a two-type configuration. -/
theorem claim_c5_witness :
    Option.map ProblematicDialog.Types
        (analyzeDialogFolder ["refund", "billing"] exFpm exRf (some exFns) "FOLDER") =
      Option.map ProblematicDialog.Types
        (analyzeDialogFolder ["billing", "refund"] exFpm exRf (some exFns) "FOLDER") :=
  (claim_c5_result_shape ["billing", "refund"] exFpm exRf exFns "FOLDER").2.2
    ["refund", "billing"] (by decide)

end DialogClassifier

namespace DialogClassifier

/-! ### Counting lemmas for the aggregation -/

theorem foldl_bumpCount (l : List String) (m : String → Nat) (s : String) :
    (l.foldl bumpCount m) s = m s + l.count s := by
  induction l generalizing m with
  | nil => simp
  | cons k rest ih =>
    simp only [List.foldl_cons]
    rw [ih]
    unfold bumpCount
    by_cases hs : s = k
    · subst hs
      simp [List.count_cons]
      omega
    · simp [List.count_cons, hs]

theorem aggStep_stats (mk : String → String → Bool) (acc : AggState)
    (d : ProblematicDialog) :
    (aggStep mk acc d).stats = d.Types.foldl bumpCount acc.stats := by
  unfold aggStep
  suffices h : ∀ (ts : List String) (acc : AggState),
      (ts.foldl
        (fun a typeKey =>
          let newStats := bumpCount a.stats typeKey
          if mk typeKey d.FolderName then
            { stats := newStats
              allDialogs := fun s =>
                if s = typeKey then a.allDialogs s ++ [d] else a.allDialogs s }
          else { stats := newStats, allDialogs := a.allDialogs }) acc).stats
        = ts.foldl bumpCount acc.stats by
    exact h d.Types acc
  intro ts
  induction ts with
  | nil => intro acc; rfl
  | cons tk rest ih =>
    intro acc
    simp only [List.foldl_cons]
    rw [ih]
    cases hmk : mk tk d.FolderName <;> simp

theorem runAggregation_stats (mk : String → String → Bool)
    (dialogs : List ProblematicDialog) (s : String) :
    (runAggregation mk dialogs).stats s = List.count s (allTypeOccurrences dialogs) := by
  unfold runAggregation allTypeOccurrences
  suffices h : ∀ (ds : List ProblematicDialog) (acc : AggState),
      (ds.foldl (aggStep mk) acc).stats s
        = acc.stats s + List.count s (ds.map ProblematicDialog.Types).flatten by
    simpa using h dialogs { stats := fun _ => 0, allDialogs := fun _ => [] }
  intro ds
  induction ds with
  | nil => intro acc; simp
  | cons d rest ih =>
    intro acc
    simp only [List.foldl_cons, List.map_cons, List.flatten_cons, List.count_append]
    rw [ih, aggStep_stats, foldl_bumpCount]
    omega

theorem sum_ge_length (l : List Nat) (h : ∀ x ∈ l, 1 ≤ x) :
    l.length ≤ l.sum ∧ (l.sum = l.length ↔ ∀ x ∈ l, x = 1) := by
  induction l with
  | nil => simp
  | cons a rest ih =>
    have ha := h a (List.mem_cons_self a rest)
    have ih2 := ih (fun x hx => h x (List.mem_cons_of_mem a hx))
    simp only [List.length_cons, List.sum_cons, List.mem_cons]
    constructor
    · omega
    · constructor
      · intro he
        have h1 : a = 1 := by omega
        have h2 : rest.sum = rest.length := by omega
        intro x hx
        rcases hx with rfl | hx
        · exact h1
        · exact (ih2.2.mp h2) x hx
      · intro hall
        have h1 : a = 1 := hall a (Or.inl rfl)
        have h2 : rest.sum = rest.length := ih2.2.mpr (fun x hx => hall x (Or.inr hx))
        omega

theorem totalStats_eq (mk : String → String → Bool) (dialogs : List ProblematicDialog) :
    totalStats mk dialogs = (allTypeOccurrences dialogs).length := by
  unfold totalStats
  have hmap : (allTypeOccurrences dialogs).dedup.map (runAggregation mk dialogs).stats
      = (allTypeOccurrences dialogs).dedup.map
          (fun x => List.count x (allTypeOccurrences dialogs)) := by
    apply List.map_congr_left
    intro x _
    exact runAggregation_stats mk dialogs x
  rw [hmap, List.sum_map_count_dedup_eq_length]

/-! ### Claim theorems: aggregation -/

/-- Claim C7: the sum of the per-type counts over all occurring types is at
least the number of classified dialogs that reached the aggregation, with
equality exactly when no dialog matched more than one type.  The statement
holds for every outcome of the output-directory creations, since the count
increment does not depend on them. -/
theorem claim_c7_counts_sum (mk : String → String → Bool)
    (dialogs : List ProblematicDialog) (h : ∀ d ∈ dialogs, d.Types ≠ []) :
    dialogs.length ≤ totalStats mk dialogs ∧
      (totalStats mk dialogs = dialogs.length ↔ ∀ d ∈ dialogs, d.Types.length = 1) := by
  rw [totalStats_eq]
  unfold allTypeOccurrences
  rw [List.length_flatten]
  have hone : ∀ x ∈ (dialogs.map ProblematicDialog.Types).map List.length, 1 ≤ x := by
    intro x hx
    simp only [List.map_map, List.mem_map, Function.comp] at hx
    obtain ⟨d, hd, rfl⟩ := hx
    have hpos : 0 < d.Types.length := List.length_pos.mpr (h d hd)
    omega
  have hs := sum_ge_length _ hone
  have hlen2 : ((dialogs.map ProblematicDialog.Types).map List.length).length
      = dialogs.length := by simp
  constructor
  · calc dialogs.length = _ := hlen2.symm
      _ ≤ _ := hs.1
  · rw [← hlen2, hs.2]
    constructor
    · intro hall d hd
      exact hall _ (by
        simp only [List.map_map, List.mem_map, Function.comp]
        exact ⟨d, hd, rfl⟩)
    · intro hall x hx
      simp only [List.map_map, List.mem_map, Function.comp] at hx
      obtain ⟨d, hd, rfl⟩ := hx
      exact hall d hd

/-- Claim C7, witness at a one-dialog aggregation. -/
theorem claim_c7_witness :
    [exDialog].length ≤ totalStats (fun _ _ => true) [exDialog] ∧
      (totalStats (fun _ _ => true) [exDialog] = [exDialog].length ↔
        ∀ d ∈ [exDialog], d.Types.length = 1) :=
  claim_c7_counts_sum (fun _ _ => true) [exDialog] (by decide)

/-- Claim C10: for every type the count dominates the length of the per-type
dialog list, and when creating the per-dialog output directory fails the
count has already been incremented while the dialog is not appended, so the
inequality can be strict: on a one-dialog run whose directory creation fails,
the count is 1 and the list is empty. -/
theorem claim_c10_counts_dominate :
    (∀ (mk : String → String → Bool) (dialogs : List ProblematicDialog) (t : String),
        ((runAggregation mk dialogs).allDialogs t).length ≤ (runAggregation mk dialogs).stats t) ∧
      (runAggregation (fun _ _ => false) [exDialog]).stats "refund" = 1 ∧
      (runAggregation (fun _ _ => false) [exDialog]).allDialogs "refund" = [] := by
  refine ⟨?_, by decide, by decide⟩
  intro mk dialogs t
  suffices h : ∀ (ds : List ProblematicDialog) (acc : AggState),
      (∀ u, (acc.allDialogs u).length ≤ acc.stats u) →
      ∀ u, ((ds.foldl (aggStep mk) acc).allDialogs u).length ≤ (ds.foldl (aggStep mk) acc).stats u by
    exact h dialogs { stats := fun _ => 0, allDialogs := fun _ => [] } (fun u => le_refl 0) t
  intro ds
  induction ds with
  | nil => intro acc hacc u; exact hacc u
  | cons d rest ih =>
    intro acc hacc u
    simp only [List.foldl_cons]
    apply ih
    unfold aggStep
    suffices hstep : ∀ (ts : List String) (a : AggState),
        (∀ v, (a.allDialogs v).length ≤ a.stats v) →
        ∀ v, ((ts.foldl
          (fun a typeKey =>
            let newStats := bumpCount a.stats typeKey
            if mk typeKey d.FolderName then
              { stats := newStats
                allDialogs := fun s =>
                  if s = typeKey then a.allDialogs s ++ [d] else a.allDialogs s }
            else { stats := newStats, allDialogs := a.allDialogs }) a).allDialogs v).length ≤
          ((ts.foldl
            (fun a typeKey =>
              let newStats := bumpCount a.stats typeKey
              if mk typeKey d.FolderName then
                { stats := newStats
                  allDialogs := fun s =>
                    if s = typeKey then a.allDialogs s ++ [d] else a.allDialogs s }
              else { stats := newStats, allDialogs := a.allDialogs }) a).stats v) by
      exact hstep d.Types acc hacc
    intro ts
    induction ts with
    | nil => intro a ha v; exact ha v
    | cons tk rest2 ih2 =>
      intro a ha v
      simp only [List.foldl_cons]
      apply ih2
      intro w
      cases hmk : mk tk d.FolderName with
      | true =>
        simp only [if_true]
        unfold bumpCount
        by_cases hw : w = tk
        · subst hw
          simp [ha w]
        · simp [hw, ha w]
      | false =>
        simp only [Bool.false_eq_true, if_false]
        unfold bumpCount
        by_cases hw : w = tk
        · subst hw
          have := ha w
          simp
          omega
        · simp [hw, ha w]

end DialogClassifier

namespace DialogClassifier

/-! ### Claim theorems: trigger frequency keying -/

/-- Two dialogs whose recorded triggers differ only in casing. -/
def exC2Dialog1 : ProblematicDialog :=
  { FolderName := "AAA-1", ID := "AAA-1", Types := ["payment"], Files := []
    Triggers := ["Refund"] }

def exC2Dialog2 : ProblematicDialog :=
  { FolderName := "BBB-2", ID := "BBB-2", Types := ["payment"], Files := []
    Triggers := ["refund"] }

def exC2AllDialogs : List (String × List ProblematicDialog) :=
  [("payment", [exC2Dialog1, exC2Dialog2])]

/-- Claim C2, counterexample: the triggers `Refund` and `refund`, recorded by
two different dialogs, are case-insensitively equal, yet the accumulation
counts them under two separate keys with one occurrence each; the case-folded
accumulation the spec describes would count two occurrences under one key.
So `triggerFrequency` is not keyed by the case-fold normalization. -/
theorem claim_c2_counterexample :
    goEqualFold "Refund" "refund" = true ∧
      computeTriggerStats exC2AllDialogs "Refund" = 1 ∧
      computeTriggerStats exC2AllDialogs "refund" = 1 ∧
      specTriggerStats exC2AllDialogs "refund" = 2 ∧
      computeTriggerStats exC2AllDialogs ≠ specTriggerStats exC2AllDialogs := by
  refine ⟨by decide, by decide, by decide, by decide, ?_⟩
  intro hfun
  exact absurd (congrFun hfun "refund") (by decide)

/-- Claim C2, amended: the global trigger frequency map is keyed by the exact
trigger string as recorded in each dialog (the first-seen casing), with no
normalization: the count of a key is the number of exact occurrences of that
string over all (type, dialog) entries the accumulation walks. -/
theorem claim_c2_exact_key (allDialogs : List (String × List ProblematicDialog))
    (s : String) :
    computeTriggerStats allDialogs s = List.count s (flatTriggerOccurrences allDialogs) := by
  unfold computeTriggerStats flatTriggerOccurrences
  have hdlg : ∀ (ds : List ProblematicDialog) (m : String → Nat),
      (ds.foldl (fun m2 d => d.Triggers.foldl bumpCount m2) m) s
        = m s + List.count s ((ds.map ProblematicDialog.Triggers).flatten) := by
    intro ds
    induction ds with
    | nil => intro m; simp
    | cons d rest2 ih2 =>
      intro m
      simp only [List.foldl_cons, List.map_cons, List.flatten_cons, List.count_append]
      rw [ih2, foldl_bumpCount]
      omega
  suffices h : ∀ (ps : List (String × List ProblematicDialog)) (m : String → Nat),
      (ps.foldl (fun m p => p.2.foldl (fun m2 d => d.Triggers.foldl bumpCount m2) m) m) s
        = m s + List.count s (((ps.map Prod.snd).flatten).map ProblematicDialog.Triggers).flatten by
    simpa using h allDialogs (fun _ => 0)
  intro ps
  induction ps with
  | nil => intro m; simp
  | cons p rest ih =>
    intro m
    simp only [List.foldl_cons, List.map_cons, List.flatten_cons, List.map_append,
      List.flatten_append, List.count_append]
    rw [ih, hdlg]
    omega

/-! ### Claim theorems: type ranking -/

/-- Two types with equal counts, first occurring in the order a then b. -/
def exC3Stats : List (String × Nat) := [("a", 1), ("b", 1)]

/-- Claim C3, counterexample: on two types with equal counts whose first
occurrences arrived in the order a, b, the code can output the reversed
order b, a — the pre-sort order comes from ranging over a Go map, which can
enumerate the entries in either order, and the unstable sort may keep it.
So the tie order is not the insertion order of first occurrence. -/
theorem claim_c3_counterexample :
    possibleTypeRanking exC3Stats [("b", 1), ("a", 1)] ∧
      [("b", 1), ("a", 1)] ≠ exC3Stats := by
  constructor
  · exact ⟨[("b", 1), ("a", 1)], by decide, List.Perm.refl _, by decide⟩
  · decide

/-- Claim C3, amended: the ranking is descending by count — every possible
outcome is a permutation of the stats entries arranged in non-increasing
count order — but the relative order of equal-count types is not determined:
for every map iteration order, sorting it descending is a possible outcome. -/
theorem claim_c3_ranking (stats : List (String × Nat)) :
    (∀ out, possibleTypeRanking stats out →
        out.Perm stats ∧ out.Pairwise (fun a b => b.2 ≤ a.2)) ∧
      ∀ entries, entries.Perm stats → possibleTypeRanking stats (rankTypesDesc entries) := by
  constructor
  · rintro out ⟨entries, hpe, hout, hsorted⟩
    exact ⟨hout.trans hpe, hsorted⟩
  · intro entries hperm
    refine ⟨entries, hperm, List.perm_insertionSort _ entries, ?_⟩
    haveI : IsTotal (String × Nat) (fun a b => b.2 ≤ a.2) := ⟨fun a b => le_total b.2 a.2⟩
    haveI : IsTrans (String × Nat) (fun a b => b.2 ≤ a.2) :=
      ⟨fun a b c h1 h2 => le_trans h2 h1⟩
    exact List.sorted_insertionSort _ entries

/-- Claim C3, witness for the amended theorem. -/
theorem claim_c3_witness :
    possibleTypeRanking exC3Stats (rankTypesDesc [("b", 1), ("a", 1)]) :=
  (claim_c3_ranking exC3Stats).2 [("b", 1), ("a", 1)] (by decide)

/-! ### Claim theorems: input-root listing -/

/-- A root listing with one non-directory entry and one dialog directory. -/
def exEntries : List DirEntry :=
  [{ name := "notes.txt", isDir := false }, { name := "AAA-1", isDir := true }]

/-- A scanner outcome for the example root. -/
def exScan : String → Option ProblematicDialog :=
  fun n => if n == "AAA-1" then some exDialog else none

/-- Claim C9, counterexample: with a non-directory entry present in the root
listing, the run is not terminated: the directory entry is still scanned and
classification output is produced for it.  Only the listing read error is
fatal. -/
theorem claim_c9_counterexample :
    exEntries.any (fun e => !e.isDir) = true ∧
      runClassification exScan (some exEntries) = some [("AAA-1", some exDialog)] ∧
      runClassification exScan (some exEntries) ≠ none := by
  refine ⟨by decide, by decide, ?_⟩
  intro h
  simp [runClassification] at h

/-- Claim C9, amended: a failure to read the input root terminates the run
with no folder processed; a successful listing never terminates the run, and
the folders processed are exactly the directory entries — each non-directory
entry is skipped and contributes nothing. -/
theorem claim_c9_listing (scan : String → Option ProblematicDialog) :
    runClassification scan none = none ∧
      ∀ (entries : List DirEntry) (res : List (String × Option ProblematicDialog)),
        runClassification scan (some entries) = some res →
        ∀ nm r, (nm, r) ∈ res ↔
          (∃ e ∈ entries, e.isDir = true ∧ e.name = nm) ∧ r = scan nm := by
  refine ⟨rfl, ?_⟩
  intro entries res h nm r
  have hres : res = (entries.filter (fun e => e.isDir)).map (fun e => (e.name, scan e.name)) :=
    (Option.some.inj h).symm
  subst hres
  simp only [List.mem_map, List.mem_filter, Prod.mk.injEq]
  constructor
  · rintro ⟨e, ⟨he, hdir⟩, hnm, hr⟩
    subst hnm
    exact ⟨⟨e, he, hdir, rfl⟩, hr.symm⟩
  · rintro ⟨⟨e, he, hdir, hnm⟩, hr⟩
    subst hnm
    exact ⟨e, ⟨he, hdir⟩, rfl, hr.symm⟩

/-- Claim C9, witness for the amended theorem at the example root. -/
theorem claim_c9_witness :
    (("AAA-1", (some exDialog : Option ProblematicDialog)) ∈
        [("AAA-1", exScan "AAA-1")] ↔
      (∃ e ∈ exEntries, e.isDir = true ∧ e.name = "AAA-1") ∧
        (some exDialog : Option ProblematicDialog) = exScan "AAA-1") :=
  (claim_c9_listing exScan).2 exEntries [("AAA-1", exScan "AAA-1")] (by decide)
    "AAA-1" (some exDialog)

end DialogClassifier
